import Mathlib

/-!
Shallow embedding of the Bibliothek book-search application
(src/Bibliothek/main.py and src/Bibliothek/utils.py).

Strings are modelled with Lean `String`; the Python string operations used
by the program (`str.lower`, `str.strip`, substring containment, `<=`
comparison) are given explicit executable models below.
-/

/-- Model of Python `str.lower()`: lower-case every character (ASCII model;
`Char.toLower` only affects the ASCII uppercase range). -/
def pyLower (s : String) : String := s.map Char.toLower

/-- Model of Python `str.strip()`: drop leading and trailing whitespace. -/
def pyStrip (s : String) : String :=
  ⟨((s.data.dropWhile Char.isWhitespace).reverse.dropWhile Char.isWhitespace).reverse⟩

/-- Model of the pandas substring test `hay.str.contains(needle, regex=False)`:
plain substring containment, no pattern interpretation. -/
def pyContains (hay needle : String) : Bool := decide (needle.data <:+: hay.data)

/-- Strict lexicographic comparison of character lists by code point, a
proper prefix ordering before any longer list. -/
def pyCharLtList : List Char → List Char → Bool
  | [], [] => false
  | [], _ :: _ => true
  | _ :: _, [] => false
  | a :: as, b :: bs =>
    if a < b then true else if b < a then false else pyCharLtList as bs

/-- Model of the Python string comparison `a <= b`: lexicographic by code
point. -/
def pyStrLe (a b : String) : Bool := pyCharLtList a.data b.data || a == b

/-- A book record as used by the search engine: canonical columns of the
loaded DataFrame (`title`, `author`, `language`, `tags`). -/
structure Book where
  title : String
  author : String
  language : String
  tags : List String
deriving DecidableEq

/-- One row of the engine DataFrame: the record plus the three optional
precomputed lowercase search columns added by `SearchEngine.__init__`
(absent, `none`, on the application's plain DataFrame `self.df`). -/
structure EngineRow where
  book : Book
  titleLowerCol : Option String
  authorLowerCol : Option String
  tagsLowerCol : Option String
deriving DecidableEq

/-- The `_tags_lower` column value: space-joined lower-cased tag list
(main.py lines 31-33). -/
def tagsJoinedLower (tags : List String) : String :=
  String.intercalate (" ") (tags.map pyLower)

/-- One row of the engine's DataFrame for a record: the three precomputed
lowercase columns of `SearchEngine.__init__` (main.py lines 28-33). -/
def mkEngineRow (b : Book) : EngineRow :=
  ⟨b, some (pyLower b.title), some (pyLower b.author), some (tagsJoinedLower b.tags)⟩

/-- `SearchEngine.__init__` (main.py lines 24-33): the engine's DataFrame,
every record extended with the three precomputed lowercase columns. -/
def engineDF (C : List Book) : List EngineRow := C.map mkEngineRow

/-- A row of the application's plain DataFrame `self.df`, which carries no
precomputed lowercase columns. -/
def plainRow (b : Book) : EngineRow := ⟨b, none, none, none⟩

/-- `SearchEngine.search_books` (main.py lines 35-58): on an empty or
whitespace query return a copy of the engine DataFrame; otherwise lower-case
and strip the query and keep rows whose precomputed lowercase title, author
or joined-tags column contains it as a plain substring (`getD` models the
`na=False` treatment of missing values). -/
def search_books (C : List Book) (query : String) : List EngineRow :=
  if query = "" ∨ pyStrip query = "" then engineDF C
  else
    let q := pyStrip (pyLower query)
    (engineDF C).filter fun r =>
      pyContains (r.titleLowerCol.getD ("")) q ||
      pyContains (r.authorLowerCol.getD ("")) q ||
      pyContains (r.tagsLowerCol.getD ("")) q

/-- `SearchEngine.filter_by_language` (main.py lines 60-64). -/
def filter_by_language (rows : List EngineRow) (languages : List String) : List EngineRow :=
  if languages = [] then rows
  else rows.filter fun r => languages.contains r.book.language

/-- `SearchEngine.filter_by_tags` (main.py lines 66-72): keep rows whose tag
list contains at least one selected tag. -/
def filter_by_tags (rows : List EngineRow) (tags : List String) : List EngineRow :=
  if tags = [] then rows
  else rows.filter fun r => tags.any fun t => r.book.tags.contains t

/-- `SearchEngine.filter_by_author` (main.py lines 74-78). -/
def filter_by_author (rows : List EngineRow) (authors : List String) : List EngineRow :=
  if authors = [] then rows
  else rows.filter fun r => authors.contains r.book.author

/-- The sort key read by `sort_books` for a valid sort column. -/
def sortKey (field : String) (b : Book) : String :=
  if field = "title" then b.title
  else if field = "author" then b.author
  else b.language

/-- Insert `x` into a list, after every element `y` with `le y x`. -/
def ordInsert (le : α → α → Bool) (x : α) : List α → List α
  | [] => [x]
  | y :: ys => if le y x then y :: ordInsert le x ys else x :: y :: ys

/-- Insertion sort by a boolean comparison. -/
def insertionSort (le : α → α → Bool) : List α → List α
  | [] => []
  | x :: xs => ordInsert le x (insertionSort le xs)

/-- `SearchEngine.sort_books` (main.py lines 80-84): no-op unless the sort
column is one of title/author/language, otherwise order the rows by that
column, ascending or descending. Note: the source calls
`DataFrame.sort_values` with the default sort kind (quicksort), which pandas
documents as NOT stable; the insertion sort used here realizes one ordering
consistent with the key, and no theorem below relies on the order of
equal-key rows. -/
def sort_books (rows : List EngineRow) (sort_by : String) (ascending : Bool) : List EngineRow :=
  if sort_by = "title" ∨ sort_by = "author" ∨ sort_by = "language" then
    insertionSort
      (fun r s =>
        if ascending then pyStrLe (sortKey sort_by r.book) (sortKey sort_by s.book)
        else pyStrLe (sortKey sort_by s.book) (sortKey sort_by r.book))
      rows
  else rows

/-- The query state collected by the presentation layer and consumed by one
`apply_filters` recomputation. -/
structure QueryState where
  searchText : String
  selectedLanguages : List String
  selectedTags : List String
  selectedAuthors : List String
  sortBy : String
  ascending : Bool

/-- The search step of `BookSearchApp.apply_filters` (main.py lines 560-566):
a truthy (non-empty) query goes through `search_books`; an empty query keeps
the application's plain DataFrame, which has no lowercase columns. -/
def applySearchStage (C : List Book) (q : String) : List EngineRow :=
  if q = "" then C.map plainRow else search_books C q

/-- `BookSearchApp.apply_filters` (main.py lines 555-587): search, the three
filters, then the sort stage with the current sort dropdown state. -/
def apply_filters (C : List Book) (qs : QueryState) : List EngineRow :=
  let r1 := applySearchStage C qs.searchText
  let r2 := filter_by_language r1 qs.selectedLanguages
  let r3 := filter_by_tags r2 qs.selectedTags
  let r4 := filter_by_author r3 qs.selectedAuthors
  sort_books r4 qs.sortBy qs.ascending

/-- The `total_pages` formula of `display_results` and `next_page`
(main.py lines 611 and 645). -/
def totalPagesOf (total pageSize : Nat) : Nat := (total + pageSize - 1) / pageSize

/-- The page count that `display_results` (main.py lines 599-622) reports to
`update_pagination_controls`: it short-circuits with 0 when there are no
records, and otherwise uses the ceiling formula. -/
def displayTotalPages (total pageSize : Nat) : Nat :=
  if total = 0 then 0 else totalPagesOf total pageSize

/-- The page slice of `display_results` (main.py lines 612-616):
`start = page*pageSize`, `stop = min(start+pageSize, total)`,
`iloc[start:stop]`. -/
def pageSlice (rs : List Book) (pageSize page : Nat) : List Book :=
  (rs.drop (page * pageSize)).take
    (min (page * pageSize + pageSize) rs.length - page * pageSize)

/-- A JSON/DataFrame cell value as it occurs in the book files: null (NaN
after loading), a string scalar, or an array of strings. -/
inductive Cell where
  | na : Cell
  | s : String → Cell
  | l : List String → Cell
deriving DecidableEq

/-- A parsed JSON object / DataFrame row: an association list from key
(column name) to cell value. A key absent from the list reads as NaN when
the column exists in other rows. -/
abbrev JsonObj := List (String × Cell)

/-- The outcome of opening and JSON-parsing the data file, as observed by
the try block of `load_json_data` (utils.py lines 21-26): a parsed array of
objects, or one of the failure classes matched by its except clauses. -/
inductive LoadOutcome where
  | success : List JsonObj → LoadOutcome
  | fileNotFound : LoadOutcome
  | parseFailure : LoadOutcome
  | otherFailure : LoadOutcome

/-- The three failure kinds reported by the loader, one per except branch
of `load_json_data` (utils.py lines 37-45). -/
inductive DataLoadError where
  | notFound : DataLoadError
  | parseError : DataLoadError
  | unknown : DataLoadError
deriving DecidableEq

/-- The column rename mapping of utils.py lines 30-31. -/
def renameKey (k : String) : String :=
  if k = "titel" then "title"
  else if k = "autor" then "author"
  else if k = "sprache" then "language"
  else if k = "schlagwörter" then "tags"
  else k

/-- Apply the legacy-to-canonical column rename to one row. -/
def renameRow (r : JsonObj) : JsonObj := r.map fun p => (renameKey p.1, p.2)

/-- Whether a column exists in the DataFrame built from `rows`: pandas
creates a column for every key appearing in at least one object. -/
def hasColumn (rows : List JsonObj) (c : String) : Bool :=
  rows.any fun r => r.any fun p => p.1 == c

/-- The lambda of utils.py line 34: keep a list value, coerce anything else
(NaN, scalar) to the empty list. -/
def coerceCell : Cell → Cell
  | .l v => .l v
  | _ => .l []

/-- The effect of the column assignment `df['tags'] = df['tags'].apply(...)`
(utils.py line 34) on one row: the tags cell is coerced; a row without a
tags key reads NaN and so receives the empty list. -/
def coerceTagsRow (r : JsonObj) : JsonObj :=
  if (r.lookup ("tags")).isSome then
    r.map fun p => if p.1 = "tags" then (p.1, coerceCell p.2) else p
  else r ++ [("tags", Cell.l [])]

/-- `load_json_data` (utils.py lines 11-45). The rename fires only when the
`titel` column is present (line 29); accessing the absent `tags` column on
line 34 raises `KeyError`, which the final `except Exception` branch turns
into an empty result with the unknown error kind. The printed diagnostic of
each except branch is modelled as the reported `DataLoadError` kind. -/
def load_json_data : LoadOutcome → List JsonObj × Option DataLoadError
  | .fileNotFound => ([], some .notFound)
  | .parseFailure => ([], some .parseError)
  | .otherFailure => ([], some .unknown)
  | .success rows =>
    let rows1 := if hasColumn rows ("titel") then rows.map renameRow else rows
    if hasColumn rows1 ("tags") then (rows1.map coerceTagsRow, none)
    else ([], some .unknown)

/-- The cell values of one column, NaN where the key is absent. -/
def cellValuesOf (rows : List JsonObj) (column : String) : List Cell :=
  rows.map fun r => (r.lookup column).getD Cell.na

/-- `get_unique_values` (utils.py lines 98-120): empty for a non-existent
column; for `tags`, the sorted deduplicated union of all tag lists; for
other columns, the sorted deduplicated non-NaN string values. -/
def get_unique_values (rows : List JsonObj) (column : String) : List String :=
  if ¬ hasColumn rows column then []
  else if column = "tags" then
    insertionSort pyStrLe
      ((cellValuesOf rows column).map fun c =>
        match c with
        | Cell.l v => v
        | _ => []).flatten.dedup
  else
    insertionSort pyStrLe
      ((cellValuesOf rows column).filterMap fun c =>
        match c with
        | Cell.s v => some v
        | _ => none).dedup

/-- Well-formed row: after applying the rename mapping, its keys are still
distinct. A parsed JSON object has distinct keys; this additionally rules
out an object carrying both the legacy and the canonical spelling of the
same field, for which pandas rename would produce duplicate column labels
(a DataFrame shape the row model does not represent). -/
def wfRow (r : JsonObj) : Prop := (r.map fun p => renameKey p.1).Nodup

/-- Concrete record used in witnesses: the Dune example of the spec. -/
def duneBook : Book := ⟨"Dune", "Herbert", "en", ["scifi"]⟩

/-- Concrete record used in witnesses: the dune-guide example of the spec. -/
def guideBook : Book := ⟨"dune guide", "X", "de", ["ref"]⟩

/-- Concrete input row with the legacy key autor but no titel key: the
rename gate of utils.py line 29 does not fire on it. -/
def mixedLegacyRow : JsonObj :=
  [("title", Cell.s "T"), ("autor", Cell.s "A"), ("language", Cell.s "en"),
   ("tags", Cell.l ["x"])]

/-- Concrete input row written entirely in the legacy naming scheme. -/
def fullLegacyRow : JsonObj :=
  [("titel", Cell.s "T"), ("autor", Cell.s "A"), ("sprache", Cell.s "en"),
   ("schlagwörter", Cell.l ["x"])]

/-- Concrete catalog whose titles are out of order, used to exhibit the
sort stage reordering an unfiltered result. -/
def unsortedCatalog : List Book := [⟨"b", "B", "en", []⟩, ⟨"a", "A", "en", []⟩]

/-- The query state with empty search text and empty selections and the
default sort dropdown state (sort by title, ascending). -/
def emptyQueryState : QueryState := ⟨"", [], [], [], "title", true⟩

/-! ## Helper lemmas -/

theorem pyStrip_empty : pyStrip ("") = "" := by decide

/-- The ceiling formula covers all records: `total <= totalPages * pageSize`. -/
theorem ceil_mul_ge (a b : Nat) (h : 0 < b) : a ≤ (a + b - 1) / b * b := by
  have hdm := Nat.div_add_mod (a + b - 1) b
  have hm : (a + b - 1) % b < b := Nat.mod_lt _ h
  rw [Nat.mul_comm]
  omega

/-- The ceiling formula is the least page count covering all records. -/
theorem ceil_le_of_le_mul (a b m : Nat) (h : 0 < b) (hm : a ≤ m * b) :
    (a + b - 1) / b ≤ m := by
  rw [Nat.div_le_iff_le_mul_add_pred h]
  rw [Nat.mul_comm] at hm
  omega

/-! ## C10: get_unique_values on a missing column -/

/-- C10: for every catalog and every field name that is not a column of the
catalog, `get_unique_values` returns the empty list rather than raising. -/
theorem get_unique_values_missing_column (rows : List JsonObj) (column : String)
    (h : hasColumn rows column = false) : get_unique_values rows column = [] := by
  simp [get_unique_values, h]

/-- Witness for C10 at a concrete catalog and column name. -/
theorem get_unique_values_missing_column_witness :
    hasColumn [[("title", Cell.s "A")]] ("publisher") = false ∧
    get_unique_values [[("title", Cell.s "A")]] ("publisher") = [] :=
  ⟨by decide, get_unique_values_missing_column _ _ (by decide)⟩

/-! ## C3: total page count -/

/-- C3 counterexample: with no records the code reports 0 total pages, not
the single empty page (at least 1) the claim requires. -/
theorem display_total_pages_empty_counterexample :
    ¬ (1 ≤ displayTotalPages 0 50) := by decide

/-- C3 amended: for a non-empty result set, the reported page count is the
ceiling of total / pageSize, characterized as the least page count whose
pages cover all records; for an empty result set the display path
short-circuits and reports 0 pages. -/
theorem total_pages_ceiling (total pageSize : Nat) (h : 0 < pageSize) :
    displayTotalPages 0 pageSize = 0 ∧
    (0 < total →
      total ≤ displayTotalPages total pageSize * pageSize ∧
      ∀ m : Nat, total ≤ m * pageSize → displayTotalPages total pageSize ≤ m) := by
  constructor
  · simp [displayTotalPages]
  · intro ht
    have hne : total ≠ 0 := Nat.pos_iff_ne_zero.mp ht
    rw [displayTotalPages, if_neg hne, totalPagesOf]
    exact ⟨ceil_mul_ge total pageSize h, fun m hm => ceil_le_of_le_mul total pageSize m h hm⟩

/-- Witness for C3 at pageSize 50 and total 101 (3 pages). -/
theorem total_pages_ceiling_witness :
    0 < (50 : Nat) ∧ displayTotalPages 0 50 = 0 ∧
    (101 : Nat) ≤ displayTotalPages 101 50 * 50 ∧ displayTotalPages 101 50 ≤ 3 :=
  ⟨by decide, (total_pages_ceiling 101 50 (by decide)).1,
    ((total_pages_ceiling 101 50 (by decide)).2 (by decide)).1,
    ((total_pages_ceiling 101 50 (by decide)).2 (by decide)).2 3 (by decide)⟩

/-! ## C4: pagination round-trip -/

/-- Normal form of a page slice: drop the earlier pages, take one page. -/
theorem pageSlice_eq_drop_take (rs : List Book) (pp page : Nat) :
    pageSlice rs pp page = (rs.drop (page * pp)).take pp := by
  rw [pageSlice]
  rcases Nat.le_total (page * pp + pp) rs.length with h | h
  · rw [Nat.min_eq_left h]
    congr 1
    omega
  · rw [Nat.min_eq_right h]
    have hlen : (rs.drop (page * pp)).length = rs.length - page * pp :=
      List.length_drop _ _
    rw [List.take_of_length_le (le_of_eq hlen),
      List.take_of_length_le (by rw [hlen]; omega)]

/-- Concatenating the first n pages reproduces the list once n pages cover
its length. -/
theorem flatten_pages (pp : Nat) :
    ∀ (n : Nat) (rs : List Book), rs.length ≤ n * pp →
      ((List.range n).map fun i => (rs.drop (i * pp)).take pp).flatten = rs := by
  intro n
  induction n with
  | zero =>
    intro rs h
    have hnil : rs = [] := List.eq_nil_of_length_eq_zero (by omega)
    simp [hnil]
  | succ n ih =>
    intro rs h
    rw [List.range_succ_eq_map]
    simp only [List.map_cons, List.map_map, List.flatten_cons, Nat.zero_mul,
      List.drop_zero]
    have htail : (List.range n).map ((fun i => (rs.drop (i * pp)).take pp) ∘ Nat.succ)
        = (List.range n).map fun i => ((rs.drop pp).drop (i * pp)).take pp := by
      apply List.map_congr_left
      intro i _
      simp only [Function.comp_apply]
      rw [List.drop_drop, Nat.succ_mul, Nat.add_comm pp (i * pp)]
    rw [htail, ih (rs.drop pp)
      (by rw [List.length_drop]; rw [Nat.succ_mul] at h; omega)]
    exact List.take_append_drop pp rs

/-- C4: concatenating the page slices for pageIndex 0 .. totalPages-1
reproduces the full result set exactly; in particular a 5-record result at
pageSize 2, pageIndex 2 yields exactly the 5th record, with 3 total pages. -/
theorem paginate_roundtrip (rs : List Book) (pageSize : Nat) (h : 0 < pageSize)
    (b1 b2 b3 b4 b5 : Book) :
    ((List.range (totalPagesOf rs.length pageSize)).map (pageSlice rs pageSize)).flatten = rs ∧
    pageSlice [b1, b2, b3, b4, b5] 2 2 = [b5] ∧ totalPagesOf 5 2 = 3 := by
  refine ⟨?_, ?_, by decide⟩
  · have hcov : rs.length ≤ totalPagesOf rs.length pageSize * pageSize :=
      ceil_mul_ge rs.length pageSize h
    have hps : (List.range (totalPagesOf rs.length pageSize)).map (pageSlice rs pageSize)
        = (List.range (totalPagesOf rs.length pageSize)).map
            fun i => (rs.drop (i * pageSize)).take pageSize :=
      List.map_congr_left fun i _ => pageSlice_eq_drop_take rs pageSize i
    rw [hps]
    exact flatten_pages pageSize _ rs hcov
  · rw [pageSlice_eq_drop_take]
    rfl

/-- Witness for C4 on a concrete 5-record result set with pageSize 2. -/
theorem paginate_roundtrip_witness :
    0 < (2 : Nat) ∧
    ((List.range (totalPagesOf
        ([duneBook, guideBook, duneBook, guideBook, duneBook] : List Book).length 2)).map
      (pageSlice [duneBook, guideBook, duneBook, guideBook, duneBook] 2)).flatten
        = [duneBook, guideBook, duneBook, guideBook, duneBook] ∧
    pageSlice [duneBook, guideBook, duneBook, guideBook, duneBook] 2 2 = [duneBook] ∧
    totalPagesOf 5 2 = 3 :=
  ⟨by decide, paginate_roundtrip _ 2 (by decide) duneBook guideBook duneBook guideBook duneBook⟩

/-! ## Association-list lookup helpers for the row model -/

theorem lookup_cons_self {β : Type} (k : String) (w : β) (rest : List (String × β)) :
    ((k, w) :: rest).lookup k = some w := by simp [List.lookup]

theorem lookup_cons_ne {β : Type} (a k : String) (w : β) (rest : List (String × β))
    (h : a ≠ k) : ((k, w) :: rest).lookup a = rest.lookup a := by
  have hbeq : (a == k) = false := beq_eq_false_iff_ne.mpr h
  simp [List.lookup, hbeq]

/-- The coercion lambda of utils.py line 34 always yields a list cell. -/
theorem coerceCell_isList (v : Cell) : ∃ l, coerceCell v = Cell.l l := by
  cases v <;> exact ⟨_, rfl⟩

/-- The tags-coercion map rewrites the first tags entry of a row. -/
theorem lookup_map_coerce (r : JsonObj) (v : Cell) (h : r.lookup ("tags") = some v) :
    (r.map fun p => if p.1 = "tags" then (p.1, coerceCell p.2) else p).lookup ("tags")
      = some (coerceCell v) := by
  induction r with
  | nil => simp at h
  | cons p rest ih =>
    obtain ⟨k, w⟩ := p
    by_cases hk : k = "tags"
    · subst hk
      rw [lookup_cons_self] at h
      injection h with h
      subst h
      simp only [List.map_cons, if_pos rfl]
      exact lookup_cons_self _ _ _
    · have hne : ("tags" : String) ≠ k := fun he => hk he.symm
      rw [lookup_cons_ne _ _ _ _ hne] at h
      simp only [List.map_cons]
      rw [if_neg hk, lookup_cons_ne _ _ _ _ hne]
      exact ih h

/-- The tags-coercion map leaves every other column of a row unchanged. -/
theorem lookup_map_coerce_other (r : JsonObj) (c : String) (hc : c ≠ "tags") :
    (r.map fun p => if p.1 = "tags" then (p.1, coerceCell p.2) else p).lookup c
      = r.lookup c := by
  induction r with
  | nil => rfl
  | cons p rest ih =>
    obtain ⟨k, w⟩ := p
    simp only [List.map_cons]
    by_cases hk : k = "tags"
    · subst hk
      rw [if_pos rfl, lookup_cons_ne _ _ _ _ hc, lookup_cons_ne _ _ _ _ hc]
      exact ih
    · rw [if_neg hk]
      by_cases hck : c = k
      · subst hck
        rw [lookup_cons_self, lookup_cons_self]
      · rw [lookup_cons_ne _ _ _ _ hck, lookup_cons_ne _ _ _ _ hck]
        exact ih

/-- Looking up a key appended at the end of a row that lacks it. -/
theorem lookup_append_of_none {β : Type} (r : List (String × β)) (c : String) (v : β)
    (h : r.lookup c = none) : (r ++ [(c, v)]).lookup c = some v := by
  induction r with
  | nil => exact lookup_cons_self c v []
  | cons p rest ih =>
    obtain ⟨k, w⟩ := p
    by_cases hk : c = k
    · subst hk
      rw [lookup_cons_self] at h
      exact absurd h (by simp)
    · rw [lookup_cons_ne _ _ _ _ hk] at h
      rw [List.cons_append, lookup_cons_ne _ _ _ _ hk]
      exact ih h

/-- Appending a pair for one key does not change lookups of other keys. -/
theorem lookup_append_other {β : Type} (r : List (String × β)) (c c2 : String) (v : β)
    (h : c2 ≠ c) : (r ++ [(c, v)]).lookup c2 = r.lookup c2 := by
  induction r with
  | nil => exact lookup_cons_ne _ _ _ _ h
  | cons p rest ih =>
    obtain ⟨k, w⟩ := p
    by_cases hk : c2 = k
    · subst hk
      rw [List.cons_append, lookup_cons_self, lookup_cons_self]
    · rw [List.cons_append, lookup_cons_ne _ _ _ _ hk, lookup_cons_ne _ _ _ _ hk]
      exact ih

/-- After the line-34 coercion, the tags column of every row holds a list. -/
theorem coerceTagsRow_isList (r : JsonObj) :
    ∃ l, (coerceTagsRow r).lookup ("tags") = some (Cell.l l) := by
  cases h : r.lookup ("tags") with
  | none =>
    have hns : (r.lookup ("tags")).isSome = false := by rw [h]; rfl
    rw [coerceTagsRow, if_neg (by simp [hns])]
    exact ⟨[], lookup_append_of_none r ("tags") (Cell.l []) h⟩
  | some v =>
    obtain ⟨l, hl⟩ := coerceCell_isList v
    have hsome : (r.lookup ("tags")).isSome = true := by rw [h]; rfl
    rw [coerceTagsRow, if_pos hsome]
    exact ⟨l, by rw [lookup_map_coerce r v h, hl]⟩

/-! ## C5: loader error contract -/

/-- C5: every failing load (file not found, malformed JSON, any other
failure, including the internal KeyError path when no tags column exists)
returns the empty catalog together with the matching error kind, and the
catalog is empty whenever an error kind is reported: no exception escapes
the loader boundary. -/
theorem load_error_contract :
    load_json_data LoadOutcome.fileNotFound = ([], some DataLoadError.notFound) ∧
    load_json_data LoadOutcome.parseFailure = ([], some DataLoadError.parseError) ∧
    load_json_data LoadOutcome.otherFailure = ([], some DataLoadError.unknown) ∧
    (∀ rows : List JsonObj,
      hasColumn (if hasColumn rows ("titel") then rows.map renameRow else rows) ("tags")
        = false →
      load_json_data (LoadOutcome.success rows) = ([], some DataLoadError.unknown)) ∧
    (∀ o : LoadOutcome, (load_json_data o).2.isSome = true → (load_json_data o).1 = []) := by
  refine ⟨rfl, rfl, rfl, ?_, ?_⟩
  · intro rows hcol
    simp only [load_json_data]
    rw [if_neg (by simp [hcol])]
  · intro o ho
    cases o with
    | fileNotFound => rfl
    | parseFailure => rfl
    | otherFailure => rfl
    | success rows =>
      by_cases hcol : hasColumn
          (if hasColumn rows ("titel") then rows.map renameRow else rows) ("tags") = true
      · simp only [load_json_data] at ho
        rw [if_pos hcol] at ho
        simp at ho
      · simp only [load_json_data]
        rw [if_neg hcol]

/-- Witness for C5 at concrete outcomes, including the missing-tags-column
path on an empty JSON array. -/
theorem load_error_contract_witness :
    hasColumn (if hasColumn ([] : List JsonObj) ("titel")
      then ([] : List JsonObj).map renameRow else []) ("tags") = false ∧
    load_json_data (LoadOutcome.success []) = ([], some DataLoadError.unknown) ∧
    (load_json_data LoadOutcome.fileNotFound).2.isSome = true ∧
    (load_json_data LoadOutcome.fileNotFound).1 = [] :=
  ⟨by decide, load_error_contract.2.2.2.1 [] (by decide), by decide,
    load_error_contract.2.2.2.2 LoadOutcome.fileNotFound (by decide)⟩

/-! ## C6: tags invariant of loaded catalogs -/

/-- C6: in every catalog returned by the loader, every record's tags field
holds a list (a sequence); a row whose tags cell is missing or not a list
is coerced to the empty list by the line-34 assignment, so tags is never
absent and never a scalar in a loaded catalog. -/
theorem loaded_tags_always_list :
    (∀ (o : LoadOutcome) (r : JsonObj), r ∈ (load_json_data o).1 →
      ∃ l, r.lookup ("tags") = some (Cell.l l)) ∧
    (∀ r : JsonObj, (∀ l, r.lookup ("tags") ≠ some (Cell.l l)) →
      (coerceTagsRow r).lookup ("tags") = some (Cell.l [])) := by
  constructor
  · intro o r hr
    cases o with
    | fileNotFound => simp [load_json_data] at hr
    | parseFailure => simp [load_json_data] at hr
    | otherFailure => simp [load_json_data] at hr
    | success rows =>
      simp only [load_json_data] at hr
      by_cases hcol : hasColumn
          (if hasColumn rows ("titel") then rows.map renameRow else rows) ("tags") = true
      · rw [if_pos hcol] at hr
        simp only [List.mem_map] at hr
        obtain ⟨r0, _, rfl⟩ := hr
        exact coerceTagsRow_isList r0
      · rw [if_neg hcol] at hr
        simp at hr
  · intro r hne
    cases h : r.lookup ("tags") with
    | none =>
      have hns : (r.lookup ("tags")).isSome = false := by rw [h]; rfl
      rw [coerceTagsRow, if_neg (by simp [hns])]
      exact lookup_append_of_none r ("tags") (Cell.l []) h
    | some v =>
      have hsome : (r.lookup ("tags")).isSome = true := by rw [h]; rfl
      rw [coerceTagsRow, if_pos hsome, lookup_map_coerce r v h]
      cases v with
      | na => rfl
      | s t => rfl
      | l lst => exact absurd h (hne lst)

/-- Witness for C6 on a concrete loaded catalog and a concrete row whose
tags cell is a scalar string. -/
theorem loaded_tags_always_list_witness :
    (∃ l, (([("title", Cell.s "T"), ("tags", Cell.l [])] : JsonObj)).lookup ("tags")
      = some (Cell.l l)) ∧
    (coerceTagsRow [("title", Cell.s "T"), ("tags", Cell.s "x")]).lookup ("tags")
      = some (Cell.l []) :=
  ⟨loaded_tags_always_list.1
      (LoadOutcome.success [[("title", Cell.s "T"), ("tags", Cell.l [])]]) _ (by decide),
    loaded_tags_always_list.2 [("title", Cell.s "T"), ("tags", Cell.s "x")]
      (fun l hl => by
        rw [(by decide : (([("title", Cell.s "T"), ("tags", Cell.s "x")] : JsonObj).lookup
          ("tags")) = some (Cell.s "x"))] at hl
        simp at hl)⟩

/-! ## C9: internal lowercase columns in search results -/

/-- C9: with a non-empty, non-whitespace query the search stage returns
rows carrying the three internal lowercase columns (so they are present in
any result set exported while a text search is active); with no query the
result rows carry none of them. -/
theorem search_result_internal_columns (C : List Book) (q : String) :
    (pyStrip q ≠ "" →
      ∀ r ∈ applySearchStage C q,
        r.titleLowerCol.isSome = true ∧ r.authorLowerCol.isSome = true ∧
          r.tagsLowerCol.isSome = true) ∧
    (q = "" →
      ∀ r ∈ applySearchStage C q,
        r.titleLowerCol = none ∧ r.authorLowerCol = none ∧ r.tagsLowerCol = none) := by
  constructor
  · intro hq r hr
    have hqe : q ≠ "" := by
      intro he
      rw [he] at hq
      exact hq pyStrip_empty
    rw [applySearchStage, if_neg hqe] at hr
    have hrdf : r ∈ engineDF C := by
      rw [search_books] at hr
      by_cases hc : q = "" ∨ pyStrip q = ""
      · rwa [if_pos hc] at hr
      · rw [if_neg hc] at hr
        exact List.mem_of_mem_filter hr
    rw [engineDF] at hrdf
    obtain ⟨b, _, rfl⟩ := List.mem_map.mp hrdf
    exact ⟨rfl, rfl, rfl⟩
  · intro hq r hr
    rw [applySearchStage, if_pos hq] at hr
    obtain ⟨b, _, rfl⟩ := List.mem_map.mp hr
    exact ⟨rfl, rfl, rfl⟩

/-- Witness for C9 on a concrete catalog, once with an active query and
once with the empty query. -/
theorem search_result_internal_columns_witness :
    (pyStrip ("dune") ≠ "" ∧
      ∀ r ∈ applySearchStage [duneBook, guideBook] ("dune"),
        r.titleLowerCol.isSome = true ∧ r.authorLowerCol.isSome = true ∧
          r.tagsLowerCol.isSome = true) ∧
    ((("" : String) = "") ∧
      ∀ r ∈ applySearchStage [duneBook, guideBook] (""),
        r.titleLowerCol = none ∧ r.authorLowerCol = none ∧ r.tagsLowerCol = none) :=
  ⟨⟨by decide, (search_result_internal_columns [duneBook, guideBook] ("dune")).1 (by decide)⟩,
    ⟨rfl, (search_result_internal_columns [duneBook, guideBook] ("")).2 rfl⟩⟩

/-! ## C7: the empty query state -/

/-- C7 counterexample: with empty search text and empty selections the
pipeline still applies the sort stage (the sort dropdown defaults to
title), so a catalog that is not already title-sorted comes back
reordered, not in its original order. -/
theorem empty_query_reorders_counterexample :
    (apply_filters unsortedCatalog emptyQueryState).map EngineRow.book ≠ unsortedCatalog := by
  decide

/-- C7 amended: with empty/whitespace search text and empty language, tag
and author selections, the search and filter stages pass the catalog
through unchanged and the pipeline output is exactly the sort stage applied
to it; the catalog's original order survives the whole pipeline precisely
in the no-op case of the sort stage (a sort field outside
title/author/language). -/
theorem apply_filters_empty_query (C : List Book) (qs : QueryState)
    (hs : pyStrip qs.searchText = "") (hl : qs.selectedLanguages = [])
    (ht : qs.selectedTags = []) (ha : qs.selectedAuthors = []) :
    apply_filters C qs
      = sort_books (applySearchStage C qs.searchText) qs.sortBy qs.ascending ∧
    (applySearchStage C qs.searchText).map EngineRow.book = C ∧
    (¬ (qs.sortBy = "title" ∨ qs.sortBy = "author" ∨ qs.sortBy = "language") →
      (apply_filters C qs).map EngineRow.book = C) := by
  have hbooks : (applySearchStage C qs.searchText).map EngineRow.book = C := by
    rw [applySearchStage]
    by_cases hq : qs.searchText = ""
    · rw [if_pos hq, List.map_map]
      show List.map id C = C
      exact List.map_id C
    · rw [if_neg hq, search_books, if_pos (Or.inr hs), engineDF, List.map_map]
      show List.map id C = C
      exact List.map_id C
  have hpipe : apply_filters C qs
      = sort_books (applySearchStage C qs.searchText) qs.sortBy qs.ascending := by
    simp [apply_filters, hl, ht, ha, filter_by_language, filter_by_tags, filter_by_author]
  refine ⟨hpipe, hbooks, ?_⟩
  intro hnot
  rw [hpipe, sort_books, if_neg hnot]
  exact hbooks

/-- Witness for C7 with whitespace search text, empty selections and a sort
field outside the sortable columns. -/
theorem apply_filters_empty_query_witness :
    pyStrip (" ") = "" ∧
    (apply_filters unsortedCatalog ⟨" ", [], [], [], "none", true⟩).map EngineRow.book
      = unsortedCatalog :=
  ⟨by decide,
    (apply_filters_empty_query unsortedCatalog ⟨" ", [], [], [], "none", true⟩
      (by decide) rfl rfl rfl).2.2 (by decide)⟩

/-! ## C1: the text-search stage -/

/-- C1: for a query that is non-empty after trimming, the text-search stage
returns exactly those records, in the catalog's original order, whose
lower-cased title, lower-cased author, or space-joined lower-cased tag list
contains the lower-cased trimmed query as a plain substring; every record
not in the result matches in none of the three. -/
theorem search_books_text_search (C : List Book) (q : String) (h : pyStrip q ≠ "") :
    ((search_books C q).map EngineRow.book).Sublist C ∧
    (∀ b : Book, b ∈ (search_books C q).map EngineRow.book ↔
      (b ∈ C ∧
        (pyContains (pyLower b.title) (pyStrip (pyLower q)) = true ∨
         pyContains (pyLower b.author) (pyStrip (pyLower q)) = true ∨
         pyContains (tagsJoinedLower b.tags) (pyStrip (pyLower q)) = true))) := by
  have hc : ¬ (q = "" ∨ pyStrip q = "") := by
    rintro (rfl | hq)
    · exact h pyStrip_empty
    · exact h hq
  have h1 : search_books C q
      = (engineDF C).filter fun r =>
          pyContains (r.titleLowerCol.getD ("")) (pyStrip (pyLower q)) ||
          pyContains (r.authorLowerCol.getD ("")) (pyStrip (pyLower q)) ||
          pyContains (r.tagsLowerCol.getD ("")) (pyStrip (pyLower q)) := by
    rw [search_books, if_neg hc]
  have hrw : (search_books C q).map EngineRow.book
      = C.filter fun b =>
          pyContains (pyLower b.title) (pyStrip (pyLower q)) ||
          pyContains (pyLower b.author) (pyStrip (pyLower q)) ||
          pyContains (tagsJoinedLower b.tags) (pyStrip (pyLower q)) := by
    rw [h1, engineDF, List.filter_map, List.map_map]
    show List.map id (C.filter fun b =>
          pyContains (pyLower b.title) (pyStrip (pyLower q)) ||
          pyContains (pyLower b.author) (pyStrip (pyLower q)) ||
          pyContains (tagsJoinedLower b.tags) (pyStrip (pyLower q))) = _
    exact List.map_id _
  constructor
  · rw [hrw]
    exact List.filter_sublist C
  · intro b
    rw [hrw, List.mem_filter]
    simp only [Bool.or_eq_true, or_assoc]

/-- Witness for C1 on the spec's Dune catalog with a padded mixed-case
query. -/
theorem search_books_text_search_witness :
    pyStrip (" DuNe ") ≠ "" ∧
    (((search_books [duneBook, guideBook] (" DuNe ")).map EngineRow.book).Sublist
        [duneBook, guideBook] ∧
      (∀ b : Book,
        b ∈ (search_books [duneBook, guideBook] (" DuNe ")).map EngineRow.book ↔
        (b ∈ [duneBook, guideBook] ∧
          (pyContains (pyLower b.title) (pyStrip (pyLower (" DuNe "))) = true ∨
           pyContains (pyLower b.author) (pyStrip (pyLower (" DuNe "))) = true ∨
           pyContains (tagsJoinedLower b.tags) (pyStrip (pyLower (" DuNe "))) = true)))) :=
  ⟨by decide, search_books_text_search [duneBook, guideBook] (" DuNe ") (by decide)⟩

/-! ## C8: legacy key renaming -/

/-- The rename mapping never produces a legacy key. -/
theorem renameKey_ne_legacy (k : String) :
    renameKey k ≠ "titel" ∧ renameKey k ≠ "autor" ∧ renameKey k ≠ "sprache" ∧
      renameKey k ≠ "schlagwörter" := by
  rw [renameKey]
  split_ifs with h1 h2 h3 h4 <;> refine ⟨?_, ?_, ?_, ?_⟩ <;> first | decide | assumption

/-- A key whose lookup succeeds is among the row's keys. -/
theorem mem_keys_of_lookup {β : Type} (r : List (String × β)) (c : String) (v : β)
    (h : r.lookup c = some v) : c ∈ r.map Prod.fst := by
  induction r with
  | nil => simp at h
  | cons p rest ih =>
    obtain ⟨k, w⟩ := p
    by_cases hk : c = k
    · subst hk
      exact List.mem_cons_self _ _
    · rw [lookup_cons_ne _ _ _ _ hk] at h
      exact List.mem_cons_of_mem _ (ih h)

/-- After the rename, no legacy key can be looked up any more. -/
theorem lookup_renameRow_legacy (r : JsonObj) (c : String)
    (hc : ∀ k : String, renameKey k ≠ c) : (renameRow r).lookup c = none := by
  induction r with
  | nil => rfl
  | cons p rest ih =>
    obtain ⟨k, w⟩ := p
    rw [renameRow, List.map_cons]
    rw [lookup_cons_ne _ _ _ _ (fun he => hc k he.symm)]
    exact ih

/-- Value transport through the rename: on a well-formed row, the value
stored under a key is found under the renamed key afterwards. -/
theorem lookup_renameRow_canonical (r : JsonObj) (leg can : String) (v : Cell)
    (hwf : wfRow r) (hcan : renameKey leg = can) (h : r.lookup leg = some v) :
    (renameRow r).lookup can = some v := by
  induction r with
  | nil => simp at h
  | cons p rest ih =>
    obtain ⟨k, w⟩ := p
    rw [wfRow, List.map_cons, List.nodup_cons] at hwf
    obtain ⟨hnotmem, hndrest⟩ := hwf
    rw [renameRow, List.map_cons]
    by_cases hk : leg = k
    · subst hk
      rw [lookup_cons_self] at h
      injection h with h
      subst h
      rw [hcan, lookup_cons_self]
    · rw [lookup_cons_ne _ _ _ _ hk] at h
      by_cases hkc : renameKey k = can
      · exfalso
        apply hnotmem
        have hmem : leg ∈ rest.map Prod.fst := mem_keys_of_lookup rest leg v h
        have h2 : renameKey leg ∈ (rest.map Prod.fst).map renameKey :=
          List.mem_map_of_mem renameKey hmem
        rw [List.map_map] at h2
        have h3 : renameKey k = renameKey leg := by rw [hkc, hcan]
        rw [h3]
        exact h2
      · rw [lookup_cons_ne _ _ _ _ (fun he => hkc he.symm)]
        exact ih hndrest h

/-- The tags coercion leaves every non-tags column unchanged. -/
theorem lookup_coerceTagsRow_other (r : JsonObj) (c : String) (hc : c ≠ "tags") :
    (coerceTagsRow r).lookup c = r.lookup c := by
  rw [coerceTagsRow]
  by_cases hsome : (r.lookup ("tags")).isSome = true
  · rw [if_pos hsome]
    exact lookup_map_coerce_other r c hc
  · rw [if_neg hsome]
    exact lookup_append_other r ("tags") c (Cell.l []) hc

/-- C8 counterexample: a file whose single object uses the legacy key autor
(with a canonical title and no titel key) is loaded without any renaming:
the returned record has no author column and still carries the autor key,
contradicting the claim that each present legacy key is renamed. -/
theorem legacy_rename_counterexample :
    ((load_json_data (LoadOutcome.success [mixedLegacyRow])).1.head?.bind
      (fun r => r.lookup ("author"))) = none ∧
    ((load_json_data (LoadOutcome.success [mixedLegacyRow])).1.head?.bind
      (fun r => r.lookup ("autor"))) = some (Cell.s "A") := by
  constructor <;> decide

/-- C8 amended: the legacy-to-canonical renaming is gated on the titel
column. When at least one object has the key titel (and the renamed table
has a tags column, so loading succeeds), the loader renames every legacy
key that is present to its canonical counterpart: the returned rows carry
no legacy key, and each value stored under titel/autor/sprache appears
under title/author/language, a list stored under schlagwörter under tags.
When no object has the key titel, no legacy key is renamed at all. -/
theorem legacy_rename_titel_gated (rows : List JsonObj)
    (htitel : hasColumn rows ("titel") = true)
    (htags : hasColumn (rows.map renameRow) ("tags") = true)
    (hwf : ∀ r ∈ rows, wfRow r) :
    (load_json_data (LoadOutcome.success rows)).1
        = (rows.map renameRow).map coerceTagsRow ∧
    (∀ r ∈ (load_json_data (LoadOutcome.success rows)).1,
      r.lookup ("titel") = none ∧ r.lookup ("autor") = none ∧
        r.lookup ("sprache") = none ∧ r.lookup ("schlagwörter") = none) ∧
    (∀ r ∈ rows, ∀ v : Cell,
      (r.lookup ("titel") = some v →
        (coerceTagsRow (renameRow r)).lookup ("title") = some v) ∧
      (r.lookup ("autor") = some v →
        (coerceTagsRow (renameRow r)).lookup ("author") = some v) ∧
      (r.lookup ("sprache") = some v →
        (coerceTagsRow (renameRow r)).lookup ("language") = some v) ∧
      (∀ lst : List String, r.lookup ("schlagwörter") = some (Cell.l lst) →
        (coerceTagsRow (renameRow r)).lookup ("tags") = some (Cell.l lst))) := by
  have hload : (load_json_data (LoadOutcome.success rows)).1
      = (rows.map renameRow).map coerceTagsRow := by
    simp only [load_json_data]
    rw [if_pos htitel, if_pos htags]
  refine ⟨hload, ?_, ?_⟩
  · intro r hr
    rw [hload] at hr
    obtain ⟨r0, hr0, rfl⟩ := List.mem_map.mp hr
    obtain ⟨r1, hr1, rfl⟩ := List.mem_map.mp hr0
    refine ⟨?_, ?_, ?_, ?_⟩
    · rw [lookup_coerceTagsRow_other _ _ (by decide)]
      exact lookup_renameRow_legacy _ _ (fun k => (renameKey_ne_legacy k).1)
    · rw [lookup_coerceTagsRow_other _ _ (by decide)]
      exact lookup_renameRow_legacy _ _ (fun k => (renameKey_ne_legacy k).2.1)
    · rw [lookup_coerceTagsRow_other _ _ (by decide)]
      exact lookup_renameRow_legacy _ _ (fun k => (renameKey_ne_legacy k).2.2.1)
    · rw [lookup_coerceTagsRow_other _ _ (by decide)]
      exact lookup_renameRow_legacy _ _ (fun k => (renameKey_ne_legacy k).2.2.2)
  · intro r hr v
    have hwfr := hwf r hr
    refine ⟨?_, ?_, ?_, ?_⟩
    · intro hv
      rw [lookup_coerceTagsRow_other _ _ (by decide)]
      exact lookup_renameRow_canonical r ("titel") ("title") v hwfr (by decide) hv
    · intro hv
      rw [lookup_coerceTagsRow_other _ _ (by decide)]
      exact lookup_renameRow_canonical r ("autor") ("author") v hwfr (by decide) hv
    · intro hv
      rw [lookup_coerceTagsRow_other _ _ (by decide)]
      exact lookup_renameRow_canonical r ("sprache") ("language") v hwfr (by decide) hv
    · intro lst hv
      have h1 : (renameRow r).lookup ("tags") = some (Cell.l lst) :=
        lookup_renameRow_canonical r ("schlagwörter") ("tags") (Cell.l lst) hwfr
          (by decide) hv
      have hsome : ((renameRow r).lookup ("tags")).isSome = true := by rw [h1]; rfl
      rw [coerceTagsRow, if_pos hsome, lookup_map_coerce _ _ h1]
      rfl

/-- Witness for C8 on a concrete single-row file written entirely in the
legacy naming scheme. -/
theorem legacy_rename_titel_gated_witness :
    (load_json_data (LoadOutcome.success [fullLegacyRow])).1
        = ([fullLegacyRow].map renameRow).map coerceTagsRow ∧
    (∀ r ∈ (load_json_data (LoadOutcome.success [fullLegacyRow])).1,
      r.lookup ("titel") = none ∧ r.lookup ("autor") = none ∧
        r.lookup ("sprache") = none ∧ r.lookup ("schlagwörter") = none) ∧
    (∀ r ∈ [fullLegacyRow], ∀ v : Cell,
      (r.lookup ("titel") = some v →
        (coerceTagsRow (renameRow r)).lookup ("title") = some v) ∧
      (r.lookup ("autor") = some v →
        (coerceTagsRow (renameRow r)).lookup ("author") = some v) ∧
      (r.lookup ("sprache") = some v →
        (coerceTagsRow (renameRow r)).lookup ("language") = some v) ∧
      (∀ lst : List String, r.lookup ("schlagwörter") = some (Cell.l lst) →
        (coerceTagsRow (renameRow r)).lookup ("tags") = some (Cell.l lst))) :=
  legacy_rename_titel_gated [fullLegacyRow] (by decide) (by decide)
    (by
      intro r hr
      simp only [List.mem_singleton] at hr
      subst hr
      rw [wfRow]
      decide)
